import Mathlib

/-!
Verification of the goauth OAuth 2.0 server toolkit.

This file is a shallow embedding of the parts of the goauth source that the
verified properties are about: the `Secret`/`Grant`/`AuthorizationCode` data
model, the in-memory session store backend (`session.go`), the `SessionStore`
facade operations (`NewAuthorizationCode`, `CheckAuthorizationCode`,
`CheckGrant`, `NewGrant`), the authorization-code grant handlers
(`authcode.go`), the implicit grant handler (`implicit.go`) and the bearer
verification middleware (`middleware.go`).

Modelling conventions:
- Go strings are Lean `String`s; `Secret` is a plain string (its masking
  behaviour is irrelevant to the verified properties, comparisons in the
  source always use the raw form).
- Time instants and durations (`time.Time`, `time.Duration`) are `Int`
  nanoseconds; `timeNow()` becomes an explicit `now : Int` argument.
  `t.Add(d).After(u)` is `t + d > u`.
- The Go maps of `MemSessionStoreBackend` are association lists keyed by the
  raw token/code string, with Go map semantics (insert replaces an existing
  binding for the key).
- Fallible Go calls return `Except Err` values; methods that may mutate the
  backend return the updated `Store` as well.
- The collaborator interfaces (`Client`, `Authenticator`) become structures
  of functions, and the random token generator becomes an explicit argument
  (a pending result, or a stream of candidate tokens for the retrying
  `NewGrant`).
-/

namespace GoAuth

/-- Error taxonomy of `oauth.go` / `client_test.go`: the fixed machine-readable
error codes. `other` stands for plain Go errors (URL parse failures,
formatted credential errors, template errors) that are not one of the fixed
`Error` values. -/
inductive Err where
  | invalidRequest
  | unauthorizedClient
  | accessDenied
  | unsupportedResponseType
  | invalidScope
  | serverError
  | temporarilyUnavailable
  | other
  deriving DecidableEq, Repr

/-- HTTP status code associated with each error kind (`client_test.go`). -/
def Err.statusCode : Err → Nat
  | .invalidRequest => 400
  | .unauthorizedClient => 401
  | .accessDenied => 401
  | .unsupportedResponseType => 400
  | .invalidScope => 400
  | .serverError => 500
  | .temporarilyUnavailable => 503
  | .other => 500

/-- Wire error code string of each fixed error (`oauth.go`). -/
def Err.codeString : Err → String
  | .invalidRequest => "invalid_request"
  | .unauthorizedClient => "unauthorized_client"
  | .accessDenied => "access_denied"
  | .unsupportedResponseType => "unsupported_response_type"
  | .invalidScope => "invalid_scope"
  | .serverError => "server_error"
  | .temporarilyUnavailable => "temporarily_unavailable"
  | .other => "error"

/-- Human description of each fixed error (`oauth.go`), as carried into
redirect `error_description` parameters. -/
def Err.descString : Err → String
  | .invalidRequest => "The request is missing a required parameter, includes an invalid parameter value, includes a parameter more than once, or is otherwise malformed."
  | .unauthorizedClient => "The client is not authorized to request an authorization code using this method."
  | .accessDenied => "The resource owner or authorization server denied the request."
  | .unsupportedResponseType => "The authorization server does not support obtaining an authorization code using this method."
  | .invalidScope => "The requested scope is invalid, unknown, or malformed."
  | .serverError => "The authorization server encountered an unexpected condition that prevented it from fulfilling the request."
  | .temporarilyUnavailable => "The authorization server is currently unable to handle the request due to a temporary overloading or maintenance of the server."
  | .other => "error"

/-- Nanoseconds per second: `time.Second` as an `Int` duration. -/
def nsPerSec : Int := 1000000000

/-- `AuthorizationCode` record (`authcode.go`): a temporary authorization
request that can be exchanged for a Grant. `expiresIn` is a duration in
nanoseconds. -/
structure AuthorizationCode where
  code : String
  redirectURI : String
  scope : List String
  createdAt : Int
  expiresIn : Int
  deriving DecidableEq, Repr

/-- `AuthorizationCode.IsExpired` (`authcode.go`):
`if a.CreatedAt.Add(a.ExpiresIn).After(timeNow()) { return false }; return true`. -/
def AuthorizationCode.isExpired (a : AuthorizationCode) (now : Int) : Bool :=
  if a.createdAt + a.expiresIn > now then false else true

/-- The view of a `Client` stored on a `Grant` that the bearer middleware
uses: only `AuthorizeScope` is called through `grant.Client`
(`middleware.go`). Go's `([]string, error)` pair return is kept as a pair
with an optional error, since the slice result is used even in the missing
`return` branch of the middleware. -/
structure GrantClient where
  authorizeScope : List String → List String × Option Err

/-- `Grant` record (snapshot of `token.go` carrying the `Client` reference):
an access token plus metadata. `expiresIn` is an `int` number of seconds,
`createdAt` an instant in nanoseconds. -/
structure Grant where
  accessToken : String
  tokenType : String
  expiresIn : Int
  refreshToken : String
  scope : List String
  createdAt : Int
  client : Option GrantClient

/-- The zero value `Grant{}` used by `SessionStore.NewGrant`. -/
def Grant.zero : Grant :=
  { accessToken := "", tokenType := "", expiresIn := 0, refreshToken := "",
    scope := [], createdAt := 0, client := none }

/-- `Grant.IsExpired` (`token.go`):
`if g.CreatedAt.Add(time.Duration(g.ExpiresIn) * time.Second).After(timeNow()) { return false }; return true`. -/
def Grant.isExpired (g : Grant) (now : Int) : Bool :=
  if g.createdAt + g.expiresIn * nsPerSec > now then false else true

/-- `DefaultTokenExpiry` (`token.go`): 3600 seconds. -/
def defaultTokenExpiry : Int := 3600

/-- `DefaultTokenType` (`token.go`). -/
def defaultTokenType : String := "bearer"

/-- `Grant.Refresh` (`token.go`): assigns fresh access and refresh tokens and
stamps the default type, expiry and creation time. The two `NewToken()`
draws are explicit arguments. -/
def Grant.refresh (g : Grant) (acc ref : String) (now : Int) : Grant :=
  { g with accessToken := acc, refreshToken := ref,
           tokenType := defaultTokenType, expiresIn := defaultTokenExpiry,
           createdAt := now }

/-- Association-list lookup with Go map semantics (at most one binding per
key is ever produced by the operations below). -/
def lookupA {α : Type} : List (String × α) → String → Option α
  | [], _ => none
  | (k, v) :: rest, key => if k = key then some v else lookupA rest key

/-- Association-list insert with Go map semantics: replaces the binding of
the key when present, otherwise appends. -/
def insertA {α : Type} : List (String × α) → String → α → List (String × α)
  | [], key, v => [(key, v)]
  | (k, w) :: rest, key, v =>
    if k = key then (key, v) :: rest else (k, w) :: insertA rest key v

/-- Association-list erase with Go map semantics (`delete`). -/
def eraseA {α : Type} : List (String × α) → String → List (String × α)
  | [], _ => []
  | (k, w) :: rest, key => if k = key then rest else (k, w) :: eraseA rest key

/-- `MemSessionStoreBackend` (`session.go`): the grants map and the
authorization codes map, keyed by the raw token/code string. -/
structure Store where
  grants : List (String × Grant)
  authCodes : List (String × AuthorizationCode)

/-- `NewMemSessionStoreBackend()`: empty maps. -/
def Store.empty : Store := { grants := [], authCodes := [] }

/-- `MemSessionStoreBackend.PutGrant`: `m.grants[grant.AccessToken.RawString()] = grant`,
always returns nil. -/
def Store.putGrant (st : Store) (g : Grant) : Store :=
  { st with grants := insertA st.grants g.accessToken g }

/-- `MemSessionStoreBackend.GetGrant`: returns the stored grant, or
`ErrorAccessDenied` when the token is not present. -/
def Store.getGrant (st : Store) (tok : String) : Except Err Grant :=
  match lookupA st.grants tok with
  | some g => .ok g
  | none => .error .accessDenied

/-- `MemSessionStoreBackend.DeleteGrant`: deletes when present (nil error),
otherwise returns `ErrorServerError`. -/
def Store.deleteGrant (st : Store) (tok : String) : Except Err Unit × Store :=
  match lookupA st.grants tok with
  | some _ => (.ok (), { st with grants := eraseA st.grants tok })
  | none => (.error .serverError, st)

/-- `MemSessionStoreBackend.PutAuthorizationCode`. -/
def Store.putAuthorizationCode (st : Store) (a : AuthorizationCode) : Store :=
  { st with authCodes := insertA st.authCodes a.code a }

/-- `MemSessionStoreBackend.GetAuthorizationCode`: returns the stored code,
or `ErrorAccessDenied` when absent — a missing code is reported as
access denied, i.e. "not found". -/
def Store.getAuthorizationCode (st : Store) (code : String) :
    Except Err AuthorizationCode :=
  match lookupA st.authCodes code with
  | some a => .ok a
  | none => .error .accessDenied

/-- `MemSessionStoreBackend.DeleteAuthorizationCode`: deletes when present,
otherwise `ErrorServerError`. -/
def Store.deleteAuthorizationCode (st : Store) (code : String) :
    Except Err Unit × Store :=
  match lookupA st.authCodes code with
  | some _ => (.ok (), { st with authCodes := eraseA st.authCodes code })
  | none => (.error .serverError, st)

/-- `DefaultAuthorizationCodeExpiry` (`authcode.go`): 10 seconds, in
nanoseconds. -/
def defaultAuthorizationCodeExpiry : Int := 10 * nsPerSec

/-- `SessionStore.NewAuthorizationCode` (`session.go`): draws a fresh code
from the token generator (`genTok` is the pending `NewToken()` result),
builds the record, treats an existing code with the same raw value as
`ErrorServerError` (without storing), and otherwise persists it. -/
def SessionStore.newAuthorizationCode (st : Store) (genTok : Except Err String)
    (redirectURI : String) (scope : List String) (now : Int) :
    Except Err AuthorizationCode × Store :=
  match genTok with
  | .error e => (.error e, st)
  | .ok code =>
    let authCode : AuthorizationCode :=
      { code := code, redirectURI := redirectURI, scope := scope,
        createdAt := now, expiresIn := defaultAuthorizationCodeExpiry }
    match st.getAuthorizationCode authCode.code with
    | .ok existing =>
      if existing.code = authCode.code then (.error .serverError, st)
      else (.ok authCode, st.putAuthorizationCode authCode)
    | .error _ => (.ok authCode, st.putAuthorizationCode authCode)

/-- `SessionStore.CheckAuthorizationCode` (`session.go`): fetches the code,
checks the stored redirect URI against the supplied one when the stored one
is non-empty, and checks expiry. The method only reads the backend, so the
store component of the result is always the input store. -/
def SessionStore.checkAuthorizationCode (st : Store) (code : String)
    (redirectURI : String) (now : Int) :
    Except Err AuthorizationCode × Store :=
  match st.getAuthorizationCode code with
  | .error e => (.error e, st)
  | .ok authCode =>
    if authCode.redirectURI ≠ "" ∧ authCode.redirectURI ≠ redirectURI then
      (.error .accessDenied, st)
    else if authCode.isExpired now then
      (.error .accessDenied, st)
    else
      (.ok authCode, st)

/-- The two backend operations `SessionStore.CheckGrant` uses, abstracted
over the backend state exactly as the Go method is generic over the
`SessionStoreBackend` interface. -/
structure GrantBackend (σ : Type) where
  getGrant : σ → String → Except Err Grant
  deleteGrant : σ → String → Except Err Unit × σ

/-- `SessionStore.CheckGrant` (`session.go`): fetches the grant by token; if
it is expired, deletes it and — only when the delete reported no error —
replaces the error with `ErrorAccessDenied` (`if err == nil { err = ErrorAccessDenied }`);
a failing delete's own error is returned instead. -/
def SessionStore.checkGrant {σ : Type} (B : GrantBackend σ) (st : σ)
    (tok : String) (now : Int) : Except Err Grant × σ :=
  match B.getGrant st tok with
  | .error e => (.error e, st)
  | .ok grant =>
    if grant.isExpired now then
      match B.deleteGrant st tok with
      | (.ok _, st1) => (.error .accessDenied, st1)
      | (.error e, st1) => (.error e, st1)
    else
      (.ok grant, st)

/-- The in-memory backend as a `GrantBackend`. -/
def memGrantBackend : GrantBackend Store :=
  { getGrant := Store.getGrant, deleteGrant := Store.deleteGrant }

/-- `SessionStore.CheckGrant` over the in-memory backend. -/
def checkGrantMem (st : Store) (tok : String) (now : Int) :
    Except Err Grant × Store :=
  SessionStore.checkGrant memGrantBackend st tok now

/-- `SessionStore.NewGrant` (`session.go`): builds `Grant{}`, refreshes it
with fresh tokens, retries recursively when the fresh access token collides
with an existing stored grant, and otherwise persists it. The token
generator is a list of (access, refresh) pairs consumed one pair per
attempt; an exhausted list (`none` result) models the unbounded Go
recursion not terminating within the supplied draws. -/
def SessionStore.newGrant (st : Store) (now : Int) :
    List (String × String) → Option (Except Err Grant × Store)
  | [] => none
  | (acc, ref) :: rest =>
    let grant := Grant.refresh Grant.zero acc ref now
    match st.getGrant grant.accessToken with
    | .ok existing =>
      if existing.accessToken = grant.accessToken then
        SessionStore.newGrant st now rest
      else
        some (.ok grant, st.putGrant grant)
    | .error _ => some (.ok grant, st.putGrant grant)

/-- `Strategy` tags (`oauth.go`): which of the four flows a client may use. -/
inductive Strategy where
  | authorizationCode
  | clientCredentials
  | resourceOwnerPasswordCredentials
  | implicit
  deriving DecidableEq, Repr

/-- The `Client` capability interface, as the union of the methods the
embedded handlers call. `allowStrategy` is the single-return variant used by
the authorization-code handlers (`client.go`), `allowStrategyErr` the
`(bool, error)` variant used by the implicit handler (`implicit.go`).
`authorizeScope` keeps Go's `([]string, error)` pair. `createGrant` is the
grant-minting method the auth-code token handler calls on the authenticated
client (`authcode.go`). -/
structure ClientC where
  allowStrategy : Strategy → Bool
  allowStrategyErr : Strategy → Bool × Option Err
  authorizeScope : List String → List String × Option Err
  allowRedirectURI : String → Bool
  authorizeResourceOwner : String → Bool × Option Err
  createGrant : List String → Except Err Grant

/-- The `Authenticator` capability interface (`oauth.go`). -/
structure Authenticator where
  getClient : String → Except Err ClientC
  getClientWithSecret : String → String → Except Err ClientC
  authorizeResourceOwner : String → String → List String → Except Err (List String)

/-- A request to the token endpoint, reduced to the fields
`handleAuthCodeTokenRequest` reads: the `r.ParseForm()` outcome, the Basic
auth credentials (`none` when absent/malformed), and the `grant_type`,
`code` and `redirect_uri` form values ("" when absent). -/
structure TokenRequest where
  parseFormOk : Bool
  basicAuth : Option (String × String)
  grantType : String
  code : String
  redirectURI : String

/-- `GrantTypeAuthorizationCode` (`oauth.go`). -/
def grantTypeAuthorizationCode : String := "authorization_code"

/-- `Server.handleAuthCodeTokenRequest` (`authcode.go`), phase 2 of the
Authorization Code grant: parse the form, authenticate the client with Basic
auth, check grant-type eligibility and the `grant_type` parameter, require a
code, validate the code against the supplied redirect URI, re-validate the
redirect URI against the authenticated client, delete the code, mint the
grant through the client and store it. The result is the grant written to
the response, or the error the handler reports. (`grant.Write` is an
infallible JSON encode for this record shape, so the final write-error
branch is not reachable in the model.) -/
def handleAuthCodeTokenRequest (auth : Authenticator) (st : Store)
    (req : TokenRequest) (now : Int) : Except Err Grant × Store :=
  if req.parseFormOk = false then (.error .other, st)
  else
    match req.basicAuth with
    | none => (.error .accessDenied, st)
    | some (clientID, clientSecret) =>
      match auth.getClientWithSecret clientID clientSecret with
      | .error _ => (.error .unauthorizedClient, st)
      | .ok client =>
        if client.allowStrategy .authorizationCode = false then
          (.error .unauthorizedClient, st)
        else if req.grantType ≠ grantTypeAuthorizationCode then
          (.error .invalidRequest, st)
        else if req.code = "" then
          (.error .accessDenied, st)
        else
          match SessionStore.checkAuthorizationCode st req.code req.redirectURI now with
          | (.error _, _) => (.error .accessDenied, st)
          | (.ok authCode, _) =>
            if client.allowRedirectURI req.redirectURI = false then
              (.error .unauthorizedClient, st)
            else
              match st.deleteAuthorizationCode req.code with
              | (.error _, st1) => (.error .serverError, st1)
              | (.ok _, st1) =>
                match client.createGrant authCode.scope with
                | .error _ => (.error .serverError, st1)
                | .ok grant => (.ok grant, st1.putGrant grant)

/-- `strings.Split(s, " ")` on the character data (ASCII separator), as the
handlers apply it to the raw `scope` parameter. -/
def splitSpaceAux : List Char → List Char → List (List Char)
  | [], acc => [acc.reverse]
  | c :: rest, acc =>
    if c = ' ' then acc.reverse :: splitSpaceAux rest []
    else splitSpaceAux rest (c :: acc)

/-- Go `strings.Split(s, " ")`. -/
def goSplitSpace (s : String) : List String :=
  (splitSpaceAux s.data []).map String.mk

/-- A request to the authorize endpoint, reduced to the fields the two
authorize handlers read. Absent parameters are "". `parseFormOk` is the
`r.ParseForm()` outcome in the POST branch. -/
structure AuthorizeRequest where
  method : String
  clientID : String
  redirectURI : String
  responseType : String
  rawScope : String
  state : String
  username : String
  password : String
  parseFormOk : Bool

/-- The observable response of an authorize-endpoint handler:
a direct JSON error (written via the error handler, never a redirect), an
HTTP 302 redirect to `base` carrying query and fragment parameters, or the
consent page rendered through the authorization handler / template (with the
scope shown and an optional inline error). -/
inductive AuthzResp where
  | jsonError (e : Err)
  | redirect (base : String) (query : List (String × String))
      (fragment : List (String × String))
  | consent (scope : List String) (authErr : Option Err)

/-- True exactly for the redirect responses. -/
def AuthzResp.isRedirect : AuthzResp → Bool
  | .redirect _ _ _ => true
  | _ => false

/-- True exactly for the direct JSON error responses. -/
def AuthzResp.isJsonError : AuthzResp → Bool
  | .jsonError _ => true
  | _ => false

/-- `ResponseTypeCode` / `ResponseTypeToken` (`oauth.go`). -/
def responseTypeCode : String := "code"

/-- `ResponseTypeToken` (`oauth.go`). -/
def responseTypeToken : String := "token"

/-- `Server.handleAuthorizationCodeGrant` (`authcode.go`), phase 1 of the
Authorization Code grant. `urlOk` models `url.Parse` succeeding on a raw
URI (the parsed `uri.String()` round-trips to the raw string for the URIs
considered here); `genTok` is the pending `NewToken()` draw consumed by
`NewAuthorizationCode`. Failures before the redirect URI is authorized are
direct JSON errors; after that, a bad response type redirects with error
parameters, and POST credential failures re-render the consent page with an
inline error. -/
def handleAuthorizationCodeGrant (auth : Authenticator)
    (urlOk : String → Bool) (genTok : Except Err String) (st : Store)
    (req : AuthorizeRequest) (now : Int) : AuthzResp × Store :=
  match auth.getClient req.clientID with
  | .error _ => (.jsonError .unauthorizedClient, st)
  | .ok client =>
    if client.allowStrategy .authorizationCode = false then
      (.jsonError .unauthorizedClient, st)
    else if urlOk req.redirectURI = false then
      (.jsonError .other, st)
    else if client.allowRedirectURI req.redirectURI = false then
      (.jsonError .unauthorizedClient, st)
    else if req.responseType ≠ responseTypeCode then
      (.redirect req.redirectURI
        [("error", Err.unsupportedResponseType.codeString),
         ("error_description", Err.unsupportedResponseType.descString)] [], st)
    else
      match client.authorizeScope (goSplitSpace req.rawScope) with
      | (_, some e) => (.jsonError e, st)
      | (scope, none) =>
        if req.method = "POST" then
          if req.parseFormOk = false then (.consent [] (some .other), st)
          else
            match client.authorizeResourceOwner req.username with
            | (_, some e) => (.consent scope (some e), st)
            | (allowed, none) =>
              if allowed = false then
                (.consent scope (some .unauthorizedClient), st)
              else
                match auth.authorizeResourceOwner req.username req.password scope with
                | .error _ => (.consent scope (some .other), st)
                | .ok scope1 =>
                  match SessionStore.newAuthorizationCode st genTok req.redirectURI scope1 now with
                  | (.error _, st1) => (.consent scope1 (some .other), st1)
                  | (.ok authCode, st1) =>
                    (.redirect req.redirectURI
                      ([("code", authCode.code)] ++
                        (if req.state ≠ "" then [("state", req.state)] else []))
                      [], st1)
        else
          (.consent scope none, st)

/-- `implicitErrorRedirect` (`implicit.go`): redirects to the supplied
redirect URI with `error` and `error_description` in the URL fragment (no
other parameter; in particular no `state`). When the URI fails to re-parse,
the raw URI is used as the redirect target with no fragment. -/
def implicitErrorRedirect (urlOk : String → Bool) (redirectURI : String)
    (e : Err) : AuthzResp :=
  if urlOk redirectURI = false then
    .redirect redirectURI [] []
  else
    .redirect redirectURI []
      [("error", e.codeString), ("error_description", e.descString)]

/-- `Server.handleImplicitGrant` (`implicit.go`): checks the response type,
requires and parses the redirect URI (direct JSON errors so far), then
resolves the client, checks strategy eligibility, authorizes the scope and
the redirect URI, and mints a grant — every failure from the client-id check
onward is delivered by `implicitErrorRedirect` to the supplied URI. Success
redirects with the grant encoded in the URL fragment, echoing `state` when
present. The session store's scoped `NewGrant` is not part of this source
snapshot, so it is the explicit `newGrant` capability argument. -/
def handleImplicitGrant (auth : Authenticator)
    (newGrant : List String → Except Err Grant) (urlOk : String → Bool)
    (req : AuthorizeRequest) : AuthzResp :=
  if req.responseType ≠ responseTypeToken then .jsonError .invalidRequest
  else if req.redirectURI = "" then .jsonError .invalidRequest
  else if urlOk req.redirectURI = false then .jsonError .invalidRequest
  else if req.clientID = "" then
    implicitErrorRedirect urlOk req.redirectURI .unauthorizedClient
  else
    match auth.getClient req.clientID with
    | .error _ => implicitErrorRedirect urlOk req.redirectURI .unauthorizedClient
    | .ok client =>
      match client.allowStrategyErr .implicit with
      | (_, some _) => implicitErrorRedirect urlOk req.redirectURI .serverError
      | (ok, none) =>
        if ok = false then
          implicitErrorRedirect urlOk req.redirectURI .unauthorizedClient
        else
          match client.authorizeScope (goSplitSpace req.rawScope) with
          | (_, some _) => implicitErrorRedirect urlOk req.redirectURI .invalidScope
          | (scope, none) =>
            if client.allowRedirectURI req.redirectURI = false then
              implicitErrorRedirect urlOk req.redirectURI .unauthorizedClient
            else
              match newGrant scope with
              | .error _ => implicitErrorRedirect urlOk req.redirectURI .unauthorizedClient
              | .ok grant =>
                .redirect req.redirectURI []
                  ([("access_token", grant.accessToken),
                    ("expires_in", toString grant.expiresIn),
                    ("token_type", grant.tokenType),
                    ("scope", String.intercalate " " scope)] ++
                   (if req.state ≠ "" then [("state", req.state)] else []))

/-- `checkInScope` (`middleware.go`): linear membership test. -/
def checkInScope (check : String) : List String → Bool
  | [] => false
  | s :: rest => if s = check then true else checkInScope check rest

/-- Go `strings.Index(s, p) == 0`, i.e. prefix test on the raw characters. -/
def goStartsWith (s p : String) : Bool :=
  List.isPrefixOf p.data s.data

/-- Go `strings.TrimPrefix(s, p)`: drops `p` when it is a prefix, otherwise
returns `s` unchanged. -/
def goTrimLead (s p : String) : String :=
  if goStartsWith s p then String.mk (s.data.drop p.data.length) else s

/-- One observable write of the middleware to the HTTP response: a status
header, an error body, or the invocation of the wrapped handler. -/
inductive Write where
  | status (n : Nat)
  | body (e : Err)
  | handler
  deriving DecidableEq, Repr

/-- `checkBearerAuth` (`middleware.go`): the bearer verification gate. The
`Authorization` header value is `cred` ("" when the header is absent, as
`r.Header.Get` reports it). The gate checks that the header is non-empty and
has `"Bearer"` as a prefix (without requiring the space), strips a leading
`"Bearer "` when present, validates the token through `CheckGrant`, and —
when `requiredScope` is non-nil (`some`) — requires the grant to carry a
client whose `AuthorizeScope(requiredScope)` result contains every required
element; the grant's own scope is not consulted. The `AuthorizeScope` error
branch of the source writes an error response without returning, so its
writes are prepended to those of the membership check that still runs. -/
def checkBearerAuth (st : Store) (requiredScope : Option (List String))
    (cred : String) (now : Int) : List Write × Store :=
  if cred = "" then ([.status 401, .body .accessDenied], st)
  else if goStartsWith cred "Bearer" = false then
    ([.status 401, .body .accessDenied], st)
  else
    let accessToken := goTrimLead cred "Bearer "
    match checkGrantMem st accessToken now with
    | (.error e, st1) => ([.status 401, .body e], st1)
    | (.ok grant, st1) =>
      match requiredScope with
      | none => ([.handler], st1)
      | some required =>
        match grant.client with
        | none => ([.status 401, .body .accessDenied], st1)
        | some client =>
          match client.authorizeScope required with
          | (scope, aerr) =>
            let pre : List Write :=
              match aerr with
              | some _ => [.status 401, .body .accessDenied]
              | none => []
            if required.all (fun check => checkInScope check scope) then
              (pre ++ [.handler], st1)
            else
              (pre ++ [.status 401, .body .accessDenied], st1)

/-! ### Association-list lemmas (Go map semantics) -/

theorem lookupA_eq_none_of_not_mem_keys {α : Type} (l : List (String × α))
    (k : String) (h : k ∉ l.map Prod.fst) : lookupA l k = none := by
  induction l with
  | nil => rfl
  | cons p rest ih =>
    obtain ⟨a, b⟩ := p
    simp only [List.map_cons, List.mem_cons, not_or] at h
    simp only [lookupA, if_neg (fun hk : a = k => h.1 hk.symm)]
    exact ih h.2

theorem lookupA_insertA_self {α : Type} (l : List (String × α)) (k : String)
    (v : α) : lookupA (insertA l k v) k = some v := by
  induction l with
  | nil => simp [insertA, lookupA]
  | cons p rest ih =>
    obtain ⟨a, b⟩ := p
    by_cases hk : a = k
    · simp [insertA, hk, lookupA]
    · simp only [insertA, if_neg hk, lookupA]
      exact ih

theorem lookupA_insertA_ne {α : Type} (l : List (String × α)) (k k1 : String)
    (v : α) (h : k1 ≠ k) : lookupA (insertA l k v) k1 = lookupA l k1 := by
  induction l with
  | nil =>
    simp only [insertA, lookupA, if_neg (fun hk : k = k1 => h hk.symm)]
  | cons p rest ih =>
    obtain ⟨a, b⟩ := p
    by_cases hk : a = k
    · subst hk
      simp only [insertA, if_pos rfl, lookupA]
      simp only [if_neg (fun hk1 : a = k1 => h hk1.symm)]
    · simp only [insertA, if_neg hk, lookupA]
      by_cases hp : a = k1
      · simp only [if_pos hp]
      · simp only [if_neg hp]
        exact ih

theorem lookupA_eraseA_self {α : Type} (l : List (String × α)) (k : String)
    (h : (l.map Prod.fst).Nodup) : lookupA (eraseA l k) k = none := by
  induction l with
  | nil => rfl
  | cons p rest ih =>
    obtain ⟨a, b⟩ := p
    simp only [List.map_cons, List.nodup_cons] at h
    by_cases hk : a = k
    · simp only [eraseA, if_pos hk]
      exact lookupA_eq_none_of_not_mem_keys rest k (hk ▸ h.1)
    · simp only [eraseA, if_neg hk, lookupA, if_neg hk]
      exact ih h.2

theorem mem_of_mem_eraseA {α : Type} (l : List (String × α)) (k : String)
    (p : String × α) (h : p ∈ eraseA l k) : p ∈ l := by
  induction l with
  | nil => exact absurd h (List.not_mem_nil p)
  | cons q rest ih =>
    obtain ⟨a, b⟩ := q
    by_cases hk : a = k
    · simp only [eraseA, if_pos hk] at h
      exact List.mem_cons_of_mem (a, b) h
    · simp only [eraseA, if_neg hk, List.mem_cons] at h
      rcases h with h | h
      · exact h ▸ List.mem_cons_self (a, b) rest
      · exact List.mem_cons_of_mem (a, b) (ih h)

theorem keys_eraseA_sublist {α : Type} (l : List (String × α)) (k : String) :
    ((eraseA l k).map Prod.fst).Sublist (l.map Prod.fst) := by
  induction l with
  | nil => simp [eraseA]
  | cons q rest ih =>
    obtain ⟨a, b⟩ := q
    by_cases hk : a = k
    · simp only [eraseA, if_pos hk, List.map_cons]
      exact List.sublist_cons_self a (rest.map Prod.fst)
    · simp only [eraseA, if_neg hk, List.map_cons]
      exact ih.cons₂ a

theorem keys_eraseA_nodup {α : Type} (l : List (String × α)) (k : String)
    (h : (l.map Prod.fst).Nodup) : ((eraseA l k).map Prod.fst).Nodup :=
  (keys_eraseA_sublist l k).nodup h

theorem mem_keys_of_mem_keys_insertA {α : Type} (l : List (String × α))
    (k x : String) (v : α) (h : x ∈ (insertA l k v).map Prod.fst) :
    x = k ∨ x ∈ l.map Prod.fst := by
  induction l with
  | nil => simpa [insertA] using h
  | cons q rest ih =>
    obtain ⟨a, b⟩ := q
    by_cases hk : a = k
    · simp only [insertA, if_pos hk, List.map_cons, List.mem_cons] at h
      rcases h with h | h
      · exact Or.inl h
      · exact Or.inr (List.mem_cons_of_mem a h)
    · simp only [insertA, if_neg hk, List.map_cons, List.mem_cons] at h
      rcases h with h | h
      · exact Or.inr (h ▸ List.mem_cons_self a (rest.map Prod.fst))
      · rcases ih h with h1 | h1
        · exact Or.inl h1
        · exact Or.inr (List.mem_cons_of_mem a h1)

theorem keys_insertA_nodup {α : Type} (l : List (String × α)) (k : String)
    (v : α) (h : (l.map Prod.fst).Nodup) :
    ((insertA l k v).map Prod.fst).Nodup := by
  induction l with
  | nil => simp [insertA]
  | cons q rest ih =>
    obtain ⟨a, b⟩ := q
    simp only [List.map_cons, List.nodup_cons] at h
    by_cases hk : a = k
    · simp only [insertA, if_pos hk, List.map_cons, List.nodup_cons]
      exact ⟨hk ▸ h.1, h.2⟩
    · simp only [insertA, if_neg hk, List.map_cons, List.nodup_cons]
      refine ⟨fun hmem => ?_, ih h.2⟩
      rcases mem_keys_of_mem_keys_insertA rest k a v hmem with h1 | h1
      · exact hk h1
      · exact h.1 h1

theorem mem_of_mem_insertA {α : Type} (l : List (String × α)) (k : String)
    (v : α) (p : String × α) (h : p ∈ insertA l k v) :
    p = (k, v) ∨ p ∈ l := by
  induction l with
  | nil => simpa [insertA] using h
  | cons q rest ih =>
    obtain ⟨a, b⟩ := q
    by_cases hk : a = k
    · simp only [insertA, if_pos hk, List.mem_cons] at h
      rcases h with h | h
      · exact Or.inl h
      · exact Or.inr (List.mem_cons_of_mem (a, b) h)
    · simp only [insertA, if_neg hk, List.mem_cons] at h
      rcases h with h | h
      · exact Or.inr (h ▸ List.mem_cons_self (a, b) rest)
      · rcases ih h with h1 | h1
        · exact Or.inl h1
        · exact Or.inr (List.mem_cons_of_mem (a, b) h1)

/-- Well-formedness of the grants map, as every reachable
`MemSessionStoreBackend` state satisfies it: the keys are distinct (a Go map)
and every stored grant is keyed by its own access token (`PutGrant` inserts
at `grant.AccessToken.RawString()`). -/
def Store.wfGrants (st : Store) : Prop :=
  (st.grants.map Prod.fst).Nodup ∧ ∀ p ∈ st.grants, (p.2).accessToken = p.1

theorem wfGrants_empty : Store.empty.wfGrants :=
  ⟨List.nodup_nil, fun p hp => absurd hp (List.not_mem_nil p)⟩

theorem wfGrants_putGrant (st : Store) (g : Grant) (h : st.wfGrants) :
    (st.putGrant g).wfGrants := by
  constructor
  · exact keys_insertA_nodup st.grants g.accessToken g h.1
  · intro p hp
    rcases mem_of_mem_insertA st.grants g.accessToken g p hp with h1 | h1
    · rw [h1]
    · exact h.2 p h1

theorem wfGrants_deleteGrant (st : Store) (tok : String) (h : st.wfGrants) :
    ((st.deleteGrant tok).2).wfGrants := by
  unfold Store.deleteGrant
  cases hl : lookupA st.grants tok with
  | none => simpa using h
  | some g =>
    simp only
    exact ⟨keys_eraseA_nodup st.grants tok h.1,
      fun p hp => h.2 p (mem_of_mem_eraseA st.grants tok p hp)⟩

/-! ### Helper lemmas about the store operations -/

theorem getGrant_ok_lookup (st : Store) (t : String) (g : Grant)
    (h : st.getGrant t = .ok g) : lookupA st.grants t = some g := by
  unfold Store.getGrant at h
  cases hl : lookupA st.grants t with
  | none => rw [hl] at h; cases h
  | some g1 => rw [hl] at h; cases h; rfl

theorem getAuthorizationCode_ok_lookup (st : Store) (c : String)
    (a : AuthorizationCode) (h : st.getAuthorizationCode c = .ok a) :
    lookupA st.authCodes c = some a := by
  unfold Store.getAuthorizationCode at h
  cases hl : lookupA st.authCodes c with
  | none => rw [hl] at h; cases h
  | some a1 => rw [hl] at h; cases h; rfl

theorem deleteGrant_of_getGrant_ok (st : Store) (t : String) (g : Grant)
    (h : st.getGrant t = .ok g) :
    st.deleteGrant t = (.ok (), { st with grants := eraseA st.grants t }) := by
  unfold Store.deleteGrant
  rw [getGrant_ok_lookup st t g h]

theorem deleteAuthorizationCode_of_get_ok (st : Store) (c : String)
    (a : AuthorizationCode) (h : st.getAuthorizationCode c = .ok a) :
    st.deleteAuthorizationCode c
      = (.ok (), { st with authCodes := eraseA st.authCodes c }) := by
  unfold Store.deleteAuthorizationCode
  rw [getAuthorizationCode_ok_lookup st c a h]

theorem isExpired_le_iff (a : AuthorizationCode) (now : Int) :
    a.isExpired now = true ↔ a.createdAt + a.expiresIn ≤ now := by
  unfold AuthorizationCode.isExpired
  split
  · next h =>
    constructor
    · intro hc; cases hc
    · intro hc; omega
  · next h =>
    constructor
    · intro _; omega
    · intro _; rfl

theorem grant_isExpired_le_iff (g : Grant) (now : Int) :
    g.isExpired now = true ↔ g.createdAt + g.expiresIn * nsPerSec ≤ now := by
  unfold Grant.isExpired
  split
  · next h =>
    constructor
    · intro hc; cases hc
    · intro hc; omega
  · next h =>
    constructor
    · intro _; omega
    · intro _; rfl

/-! ### Claim C10 -/

/-- Claim C10: expiry is closed at the boundary. For both `Grant` and
`AuthorizationCode`, `IsExpired` returns true at the exact instant
`created_at + expires_in` (the `After` comparison is strict), so `CheckGrant`
and `CheckAuthorizationCode` already deny with access_denied at exactly the
expiry time. -/
theorem expiry_boundary_closed :
    (∀ a : AuthorizationCode, a.isExpired (a.createdAt + a.expiresIn) = true) ∧
    (∀ g : Grant, g.isExpired (g.createdAt + g.expiresIn * nsPerSec) = true) ∧
    (∀ (st : Store) (c r : String) (ac : AuthorizationCode),
      st.getAuthorizationCode c = .ok ac →
      (SessionStore.checkAuthorizationCode st c r (ac.createdAt + ac.expiresIn)).1
        = .error .accessDenied) ∧
    (∀ (st : Store) (t : String) (g : Grant),
      st.getGrant t = .ok g →
      (checkGrantMem st t (g.createdAt + g.expiresIn * nsPerSec)).1
        = .error .accessDenied) := by
  have hac : ∀ a : AuthorizationCode, a.isExpired (a.createdAt + a.expiresIn) = true :=
    fun a => (isExpired_le_iff a _).mpr le_rfl
  have hg : ∀ g : Grant, g.isExpired (g.createdAt + g.expiresIn * nsPerSec) = true :=
    fun g => (grant_isExpired_le_iff g _).mpr le_rfl
  refine ⟨hac, hg, ?_, ?_⟩
  · intro st c r ac h
    simp only [SessionStore.checkAuthorizationCode, h]
    by_cases hb : ac.redirectURI ≠ "" ∧ ac.redirectURI ≠ r
    · rw [if_pos hb]
    · rw [if_neg hb, if_pos (hac ac)]
  · intro st t g h
    simp only [checkGrantMem, SessionStore.checkGrant, memGrantBackend, h,
      hg g, deleteGrant_of_getGrant_ok st t g h, if_true]

/-- Concrete authorization code and store used by the witnesses. -/
def acW : AuthorizationCode :=
  { code := "c1", redirectURI := "https://cb.example", scope := ["read"],
    createdAt := 0, expiresIn := defaultAuthorizationCodeExpiry }

/-- Store holding exactly `acW`. -/
def acStoreW : Store := Store.empty.putAuthorizationCode acW

/-- Concrete grant and store used by the witnesses. -/
def gW : Grant :=
  { accessToken := "t1", tokenType := "bearer", expiresIn := 3600,
    refreshToken := "r1", scope := ["read"], createdAt := 0, client := none }

/-- Store holding exactly `gW`. -/
def gStoreW : Store := Store.empty.putGrant gW

/-- Witness for C10: at the exact expiry instants of `acW` and `gW`, the two
check operations deny with access_denied. -/
theorem expiry_boundary_closed_witness :
    (SessionStore.checkAuthorizationCode acStoreW "c1" "x"
        (acW.createdAt + acW.expiresIn)).1 = .error .accessDenied ∧
    (checkGrantMem gStoreW "t1" (gW.createdAt + gW.expiresIn * nsPerSec)).1
        = .error .accessDenied :=
  ⟨expiry_boundary_closed.2.2.1 acStoreW "c1" "x" acW rfl,
   expiry_boundary_closed.2.2.2 gStoreW "t1" gW rfl⟩

/-! ### Claim C6 -/

/-- Claim C6: for a stored authorization code, `CheckAuthorizationCode` fails
with access_denied when the stored redirect URI is non-empty and differs from
the supplied one, or when the code is expired; when the stored redirect URI
is empty no redirect-URI comparison is made (the result does not depend on
the supplied URI); otherwise the stored code is returned without error. -/
theorem checkAuthorizationCode_spec (st : Store) (c r : String) (now : Int)
    (ac : AuthorizationCode) (h : st.getAuthorizationCode c = .ok ac) :
    (ac.redirectURI ≠ "" → ac.redirectURI ≠ r →
       (SessionStore.checkAuthorizationCode st c r now).1 = .error .accessDenied) ∧
    (ac.isExpired now = true →
       (SessionStore.checkAuthorizationCode st c r now).1 = .error .accessDenied) ∧
    (ac.redirectURI = "" → ∀ r1 r2,
       SessionStore.checkAuthorizationCode st c r1 now
         = SessionStore.checkAuthorizationCode st c r2 now) ∧
    ((ac.redirectURI = "" ∨ ac.redirectURI = r) → ac.isExpired now = false →
       (SessionStore.checkAuthorizationCode st c r now).1 = .ok ac) := by
  simp only [SessionStore.checkAuthorizationCode, h]
  refine ⟨?_, ?_, ?_, ?_⟩
  · intro h1 h2
    rw [if_pos ⟨h1, h2⟩]
  · intro hexp
    by_cases hb : ac.redirectURI ≠ "" ∧ ac.redirectURI ≠ r
    · rw [if_pos hb]
    · rw [if_neg hb, if_pos hexp]
  · intro hempty r1 r2
    rw [if_neg (fun hc => hc.1 hempty), if_neg
      (fun hc : ac.redirectURI ≠ "" ∧ ac.redirectURI ≠ r2 => hc.1 hempty)]
  · intro hor hexp
    have hb : ¬(ac.redirectURI ≠ "" ∧ ac.redirectURI ≠ r) := by
      rcases hor with h1 | h1
      · exact fun hc => hc.1 h1
      · exact fun hc => hc.2 h1
    rw [if_neg hb, if_neg (by simp [hexp])]

/-- Witness for C6: checking `acW` against its own stored redirect URI before
its expiry returns it without error. -/
theorem checkAuthorizationCode_spec_witness :
    (SessionStore.checkAuthorizationCode acStoreW "c1" "https://cb.example" 1).1
      = .ok acW :=
  (checkAuthorizationCode_spec acStoreW "c1" "https://cb.example" 1 acW rfl).2.2.2
    (Or.inr rfl) (by decide)

/-! ### Claim C3 -/

/-- An expired grant used to exercise the delete-failure path of
`CheckGrant`. -/
def expiredGrantW : Grant :=
  { accessToken := "t9", tokenType := "bearer", expiresIn := 1,
    refreshToken := "", scope := [], createdAt := 0, client := none }

/-- A `SessionStoreBackend` (for the generic `CheckGrant`, which is written
against the backend interface) that holds `expiredGrantW` but whose
`DeleteGrant` fails with server_error. -/
def failingDeleteBackend : GrantBackend Unit :=
  { getGrant := fun _ _ => .ok expiredGrantW,
    deleteGrant := fun _ _ => (.error .serverError, ()) }

/-- Counterexample for C3: `CheckGrant` does not return access_denied
"regardless of whether the delete itself succeeded" — on a backend whose
delete fails, the failing call on an expired grant surfaces the delete's
server_error instead of access_denied (`session.go` only replaces a nil
delete error: `if err == nil { err = ErrorAccessDenied }`). -/
theorem checkGrant_deleteFailure_counterexample :
    expiredGrantW.isExpired (2 * nsPerSec) = true ∧
    (SessionStore.checkGrant failingDeleteBackend () "t9" (2 * nsPerSec)).1
      = .error .serverError ∧
    Err.serverError ≠ Err.accessDenied :=
  ⟨by decide, rfl, by decide⟩

/-- Claim C3, amended: for a grant stored in the in-memory backend,
`CheckGrant` before `created_at + expires_in` returns the grant and leaves
the store unchanged; at or after that instant it deletes the grant and
returns access_denied — with this backend the delete of a just-fetched grant
always succeeds — and afterwards the grant is no longer retrievable. A
failing delete on some other backend surfaces the delete's own error (see
the counterexample), not access_denied. -/
theorem checkGrant_expiry_behavior (st : Store) (tok : String) (now : Int)
    (g : Grant) (hwf : (st.grants.map Prod.fst).Nodup)
    (h : st.getGrant tok = .ok g) :
    (now < g.createdAt + g.expiresIn * nsPerSec →
       checkGrantMem st tok now = (.ok g, st)) ∧
    (g.createdAt + g.expiresIn * nsPerSec ≤ now →
       (checkGrantMem st tok now).1 = .error .accessDenied ∧
       ((checkGrantMem st tok now).2).getGrant tok = .error .accessDenied) := by
  constructor
  · intro hlt
    have hexp : g.isExpired now = false := by
      cases hb : g.isExpired now with
      | false => rfl
      | true => exact absurd ((grant_isExpired_le_iff g now).mp hb) (by omega)
    simp [checkGrantMem, SessionStore.checkGrant, memGrantBackend, h, hexp]
  · intro hle
    have hexp : g.isExpired now = true := (grant_isExpired_le_iff g now).mpr hle
    simp only [checkGrantMem, SessionStore.checkGrant, memGrantBackend, h,
      hexp, if_true, deleteGrant_of_getGrant_ok st tok g h]
    refine ⟨by trivial, ?_⟩
    unfold Store.getGrant
    simp only
    rw [lookupA_eraseA_self st.grants tok hwf]

/-- Witness for C3 (amended): for the stored grant `gW` the check succeeds
strictly before expiry, and at expiry it denies and the grant is gone. -/
theorem checkGrant_expiry_behavior_witness :
    checkGrantMem gStoreW "t1" 5 = (.ok gW, gStoreW) ∧
    (checkGrantMem gStoreW "t1" (3600 * nsPerSec)).1 = .error .accessDenied ∧
    ((checkGrantMem gStoreW "t1" (3600 * nsPerSec)).2).getGrant "t1"
      = .error .accessDenied :=
  ⟨(checkGrant_expiry_behavior gStoreW "t1" 5 gW (by decide) rfl).1 (by decide),
   (checkGrant_expiry_behavior gStoreW "t1" (3600 * nsPerSec) gW (by decide)
      rfl).2 (by decide)⟩

/-! ### Claim C7 -/

theorem mem_of_lookupA {α : Type} (l : List (String × α)) (k : String)
    (v : α) (h : lookupA l k = some v) : (k, v) ∈ l := by
  induction l with
  | nil => cases h
  | cons p rest ih =>
    obtain ⟨a, b⟩ := p
    by_cases hk : a = k
    · subst hk
      simp [lookupA] at h
      subst h
      exact List.mem_cons_self (a, b) rest
    · simp only [lookupA, if_neg hk] at h
      exact List.mem_cons_of_mem (a, b) (ih h)

theorem getGrant_error (st : Store) (t : String) (e : Err)
    (h : st.getGrant t = .error e) :
    e = .accessDenied ∧ lookupA st.grants t = none := by
  unfold Store.getGrant at h
  cases hl : lookupA st.grants t with
  | none => rw [hl] at h; cases h; exact ⟨rfl, rfl⟩
  | some g => rw [hl] at h; cases h

theorem refresh_accessToken (g : Grant) (acc ref : String) (now : Int) :
    (g.refresh acc ref now).accessToken = acc := rfl

/-- The grant already stored when `NewGrant`'s first token draw collides. -/
def grantOldW : Grant := Grant.refresh Grant.zero "t0" "r0" 1

/-- A store holding exactly `grantOldW` under its access token "t0". -/
def storeW7 : Store := Store.empty.putGrant grantOldW

/-- The grant `NewGrant` mints on its second (non-colliding) attempt. -/
def gNewW : Grant := Grant.refresh Grant.zero "t1" "r1" 5

/-- Counterexample for C7: with a grant stored under token "t0" and a token
generator whose first draw is the colliding "t0" and whose second draw is
"t1", `NewGrant` (`session.go`) succeeds with the retried token "t1" rather
than returning server_error. -/
theorem newGrant_collision_retry_counterexample :
    storeW7.getGrant "t0" = .ok grantOldW ∧
    SessionStore.newGrant storeW7 5 [("t0", "r0"), ("t1", "r1")]
      = some (.ok gNewW, storeW7.putGrant gNewW) ∧
    (Except.ok gNewW : Except Err Grant) ≠ .error .serverError :=
  ⟨rfl, rfl, by simp⟩

/-- Claim C7, amended: `NewGrant` mints a grant with fresh access and
refresh tokens; when the fresh access token collides with an existing stored
grant it retries with newly generated tokens (recursively) rather than
returning server_error — whenever the call returns at all, it returns a
grant whose access token was not previously stored, and stores it. -/
theorem newGrant_retries_on_collision (st : Store) (now : Int)
    (toks : List (String × String)) (r : Except Err Grant) (st1 : Store)
    (hwf : ∀ p ∈ st.grants, (p.2).accessToken = p.1)
    (h : SessionStore.newGrant st now toks = some (r, st1)) :
    ∃ g, r = .ok g ∧ st.getGrant g.accessToken = .error .accessDenied ∧
      st1 = st.putGrant g := by
  revert h
  induction toks with
  | nil => intro h; cases h
  | cons pr rest ih =>
    obtain ⟨acc, ref⟩ := pr
    intro h
    rw [SessionStore.newGrant] at h
    simp only [refresh_accessToken] at h
    cases hget : Store.getGrant st acc with
    | ok existing =>
      simp only [hget] at h
      by_cases heq : existing.accessToken = acc
      · simp only [refresh_accessToken, heq, if_true] at h
        exact ih h
      · simp only [refresh_accessToken, heq, if_false, Option.some.injEq,
          Prod.mk.injEq] at h
        exfalso
        have hmem : (acc, existing) ∈ st.grants :=
          mem_of_lookupA st.grants acc existing (getGrant_ok_lookup st acc existing hget)
        exact heq (hwf (acc, existing) hmem)
    | error e =>
      simp only [hget, Option.some.injEq, Prod.mk.injEq] at h
      obtain ⟨h1, h2⟩ := h
      refine ⟨Grant.refresh Grant.zero acc ref now, ?_, ?_, ?_⟩
      · exact h1.symm
      · rw [refresh_accessToken, hget, (getGrant_error st acc e hget).1]
      · exact h2.symm

/-- Witness for C7 (amended): applying the amended theorem to the concrete
colliding run shows the returned token "t1" was not previously stored. -/
theorem newGrant_retries_on_collision_witness :
    storeW7.getGrant gNewW.accessToken = .error .accessDenied := by
  obtain ⟨g, h1, h2, h3⟩ := newGrant_retries_on_collision storeW7 5
    [("t0", "r0"), ("t1", "r1")] (.ok gNewW) (storeW7.putGrant gNewW)
    (by
      intro p hp
      rcases List.mem_singleton.mp hp with rfl
      rfl)
    rfl
  have hg : gNewW = g := by
    injection h1 with h1a
  rw [hg]
  exact h2

/-! ### Claim C1 -/

theorem putGrant_authCodes (st : Store) (g : Grant) :
    (st.putGrant g).authCodes = st.authCodes := rfl

theorem deleteAuthorizationCode_ok_shape (st : Store) (c : String) (u : Unit)
    (st2 : Store) (h : st.deleteAuthorizationCode c = (.ok u, st2)) :
    st2 = { st with authCodes := eraseA st.authCodes c } := by
  unfold Store.deleteAuthorizationCode at h
  cases hl : lookupA st.authCodes c with
  | none => rw [hl] at h; simp at h
  | some a =>
    rw [hl] at h
    simp only [Prod.mk.injEq] at h
    exact h.2.symm

/-- Inversion of a successful authorization-code token exchange: when
`handleAuthCodeTokenRequest` returns a grant, every check of the source
passed, and the final store is the input store with the code deleted and the
minted grant stored. -/
theorem handleAuthCodeTokenRequest_ok (auth : Authenticator) (st : Store)
    (req : TokenRequest) (now : Int) (g : Grant) (st1 : Store)
    (h : handleAuthCodeTokenRequest auth st req now = (.ok g, st1)) :
    req.parseFormOk = true ∧
    ∃ u p client ac,
      req.basicAuth = some (u, p) ∧
      auth.getClientWithSecret u p = .ok client ∧
      client.allowStrategy .authorizationCode = true ∧
      req.grantType = grantTypeAuthorizationCode ∧
      req.code ≠ "" ∧
      (SessionStore.checkAuthorizationCode st req.code req.redirectURI now).1
        = .ok ac ∧
      client.allowRedirectURI req.redirectURI = true ∧
      client.createGrant ac.scope = .ok g ∧
      st1 = ({ st with authCodes := eraseA st.authCodes req.code } : Store).putGrant g := by
  unfold handleAuthCodeTokenRequest at h
  split at h
  · exact absurd h (by simp)
  next hpf =>
  have hpf1 : req.parseFormOk = true := by
    cases hb : req.parseFormOk with
    | true => rfl
    | false => exact absurd hb hpf
  refine ⟨hpf1, ?_⟩
  split at h
  · exact absurd h (by simp)
  next u p hba =>
  refine ⟨u, p, ?_⟩
  split at h
  · exact absurd h (by simp)
  next client hclient =>
  refine ⟨client, ?_⟩
  split at h
  · exact absurd h (by simp)
  next hstrat =>
  have hstrat1 : client.allowStrategy .authorizationCode = true := by
    cases hb : client.allowStrategy .authorizationCode with
    | true => rfl
    | false => exact absurd hb hstrat
  split at h
  · exact absurd h (by simp)
  next hgt =>
  have hgt1 : req.grantType = grantTypeAuthorizationCode := by
    by_contra hc
    exact hgt hc
  split at h
  · exact absurd h (by simp)
  next hcode =>
  split at h
  · exact absurd h (by simp)
  next ac w hcheck =>
  refine ⟨ac, hba, hclient, hstrat1, hgt1, hcode, ?_, ?_⟩
  · rw [hcheck]
  split at h
  · exact absurd h (by simp)
  next hredir =>
  have hredir1 : client.allowRedirectURI req.redirectURI = true := by
    cases hb : client.allowRedirectURI req.redirectURI with
    | true => rfl
    | false => exact absurd hb hredir
  refine ⟨hredir1, ?_⟩
  split at h
  · exact absurd h (by simp)
  next uu st2 hdel =>
  split at h
  · exact absurd h (by simp)
  next grant hcreate =>
  simp only [Prod.mk.injEq, Except.ok.injEq] at h
  obtain ⟨hg, hst⟩ := h
  subst hg
  refine ⟨hcreate, ?_⟩
  rw [← hst, deleteAuthorizationCode_ok_shape st req.code uu st2 hdel]

/-- Claim C1: authorization codes are single-use. A token-endpoint exchange
that passes all checks leaves the store with the code deleted (a later
lookup reports it as not found, i.e. access_denied), and replaying the same
exchange against the resulting store fails with access_denied at any later
time, issuing no grant. -/
theorem authCode_single_use (auth : Authenticator) (st : Store)
    (req : TokenRequest) (now : Int) (g : Grant) (st1 : Store)
    (hwf : (st.authCodes.map Prod.fst).Nodup)
    (h : handleAuthCodeTokenRequest auth st req now = (.ok g, st1)) :
    st1.getAuthorizationCode req.code = .error .accessDenied ∧
    ∀ now2, (handleAuthCodeTokenRequest auth st1 req now2).1
      = .error .accessDenied := by
  obtain ⟨hpf, u, p, client, ac, hba, hclient, hstrat, hgt, hcode, hcheck,
    hredir, hcreate, hst⟩ := handleAuthCodeTokenRequest_ok auth st req now g st1 h
  have hget1 : st1.getAuthorizationCode req.code = .error .accessDenied := by
    rw [hst]
    unfold Store.getAuthorizationCode
    have hac : (({ st with authCodes := eraseA st.authCodes req.code } : Store).putGrant g).authCodes
        = eraseA st.authCodes req.code := rfl
    rw [hac, lookupA_eraseA_self st.authCodes req.code hwf]
  refine ⟨hget1, fun now2 => ?_⟩
  have hcheck2 : SessionStore.checkAuthorizationCode st1 req.code req.redirectURI now2
      = (.error .accessDenied, st1) := by
    unfold SessionStore.checkAuthorizationCode
    rw [hget1]
  unfold handleAuthCodeTokenRequest
  simp only [hpf, hba, hclient, hstrat, hgt, hcode, hcheck2, Bool.true_eq_false, Bool.false_eq_true,
    ne_eq, eq_self_iff_true, not_true, if_false, if_true]

/-- The cooperative client used by the exchange witnesses. -/
def clientW : ClientC :=
  { allowStrategy := fun _ => true,
    allowStrategyErr := fun _ => (true, none),
    authorizeScope := fun s => (s, none),
    allowRedirectURI := fun _ => true,
    authorizeResourceOwner := fun _ => (true, none),
    createGrant := fun sc =>
      .ok { accessToken := "at1", tokenType := "bearer", expiresIn := 3600,
            refreshToken := "rt1", scope := sc, createdAt := 0, client := none } }

/-- An authenticator recognising client "c" with secret "s". -/
def authW : Authenticator :=
  { getClient := fun cid =>
      if cid = "c" then .ok clientW else .error .unauthorizedClient,
    getClientWithSecret := fun cid cs =>
      if cid = "c" ∧ cs = "s" then .ok clientW else .error .unauthorizedClient,
    authorizeResourceOwner := fun _ _ sc => .ok sc }

/-- The stored authorization code the witness exchange consumes (empty
redirect URI: no binding check). -/
def acW1 : AuthorizationCode :=
  { code := "code1", redirectURI := "", scope := ["read"], createdAt := 0,
    expiresIn := defaultAuthorizationCodeExpiry }

/-- Store holding exactly `acW1`. -/
def stW1 : Store := Store.empty.putAuthorizationCode acW1

/-- The witness exchange request for `acW1`. -/
def reqW1 : TokenRequest :=
  { parseFormOk := true, basicAuth := some ("c", "s"),
    grantType := grantTypeAuthorizationCode, code := "code1",
    redirectURI := "" }

/-- The grant minted by `clientW` for scope ["read"]. -/
def grantW1 : Grant :=
  { accessToken := "at1", tokenType := "bearer", expiresIn := 3600,
    refreshToken := "rt1", scope := ["read"], createdAt := 0, client := none }

/-- The store after the successful witness exchange. -/
def stW1exg : Store := (handleAuthCodeTokenRequest authW stW1 reqW1 1).2

/-- Witness for C1: the concrete successful exchange of `acW1` leaves the
code deleted and an immediate replay denied. -/
theorem authCode_single_use_witness :
    stW1exg.getAuthorizationCode "code1" = .error .accessDenied ∧
    (handleAuthCodeTokenRequest authW stW1exg reqW1 2).1
      = .error .accessDenied :=
  ⟨(authCode_single_use authW stW1 reqW1 1 grantW1 stW1exg (by decide) rfl).1,
   (authCode_single_use authW stW1 reqW1 1 grantW1 stW1exg (by decide) rfl).2 2⟩

/-! ### Claim C5 -/

theorem checkAuthorizationCode_snd (st : Store) (c r : String) (now : Int) :
    (SessionStore.checkAuthorizationCode st c r now).2 = st := by
  unfold SessionStore.checkAuthorizationCode
  cases hg : st.getAuthorizationCode c with
  | error e => simp only [hg]
  | ok a =>
    simp only [hg]
    by_cases h1 : a.redirectURI ≠ "" ∧ a.redirectURI ≠ r
    · rw [if_pos h1]
    · rw [if_neg h1]
      by_cases h2 : a.isExpired now = true
      · rw [if_pos h2]
      · rw [if_neg h2]

theorem checkAuthorizationCode_ok_get (st : Store) (c r : String) (now : Int)
    (ac : AuthorizationCode) (w : Store)
    (h : SessionStore.checkAuthorizationCode st c r now = (.ok ac, w)) :
    st.getAuthorizationCode c = .ok ac := by
  unfold SessionStore.checkAuthorizationCode at h
  cases hg : st.getAuthorizationCode c with
  | error e => simp only [hg] at h; simp at h
  | ok a =>
    simp only [hg] at h
    by_cases h1 : a.redirectURI ≠ "" ∧ a.redirectURI ≠ r
    · rw [if_pos h1] at h; simp at h
    · rw [if_neg h1] at h
      by_cases h2 : a.isExpired now = true
      · rw [if_pos h2] at h; simp at h
      · rw [if_neg h2] at h
        simp only [Prod.mk.injEq, Except.ok.injEq] at h
        rw [h.1]

/-- Claim C5: in the token exchange, the stored code is deleted strictly
after the redirect-URI rebinding check and strictly before grant issuance.
`CheckAuthorizationCode` itself never touches the store (its store component
is unchanged on success and on failure); when the rebinding check fails the
whole store — the code included — is unchanged; and when grant issuance
fails after the deletion, the handler reports server_error and the code
remains deleted. -/
theorem authCodeExchange_delete_ordering (auth : Authenticator) (st : Store)
    (req : TokenRequest) (now : Int) (client : ClientC) (u p : String)
    (hwf : (st.authCodes.map Prod.fst).Nodup)
    (hpf : req.parseFormOk = true)
    (hba : req.basicAuth = some (u, p))
    (hclient : auth.getClientWithSecret u p = .ok client)
    (hstrat : client.allowStrategy .authorizationCode = true)
    (hgt : req.grantType = grantTypeAuthorizationCode)
    (hcode : req.code ≠ "") :
    ((SessionStore.checkAuthorizationCode st req.code req.redirectURI now).2 = st) ∧
    (∀ ac, SessionStore.checkAuthorizationCode st req.code req.redirectURI now
        = (.ok ac, st) →
      (client.allowRedirectURI req.redirectURI = false →
        handleAuthCodeTokenRequest auth st req now
          = (.error .unauthorizedClient, st)) ∧
      (client.allowRedirectURI req.redirectURI = true →
        ∀ e, client.createGrant ac.scope = .error e →
          (handleAuthCodeTokenRequest auth st req now).1 = .error .serverError ∧
          ((handleAuthCodeTokenRequest auth st req now).2).getAuthorizationCode req.code
            = .error .accessDenied)) := by
  refine ⟨checkAuthorizationCode_snd st req.code req.redirectURI now, ?_⟩
  intro ac hcheck
  have hget : st.getAuthorizationCode req.code = .ok ac :=
    checkAuthorizationCode_ok_get st req.code req.redirectURI now ac st hcheck
  have hdel : st.deleteAuthorizationCode req.code
      = (.ok (), { st with authCodes := eraseA st.authCodes req.code }) :=
    deleteAuthorizationCode_of_get_ok st req.code ac hget
  constructor
  · intro hredir
    unfold handleAuthCodeTokenRequest
    simp only [hpf, hba, hclient, hstrat, hgt, hcode, hcheck, hredir,
      Bool.true_eq_false, Bool.false_eq_true, ne_eq, eq_self_iff_true, not_true, if_false, if_true]
  · intro hredir e hcreate
    unfold handleAuthCodeTokenRequest
    simp only [hpf, hba, hclient, hstrat, hgt, hcode, hcheck, hredir, hdel,
      hcreate, Bool.true_eq_false, Bool.false_eq_true, ne_eq, eq_self_iff_true, not_true, if_false, if_true]
    constructor
    · trivial
    · unfold Store.getAuthorizationCode
      simp only
      rw [lookupA_eraseA_self st.authCodes req.code hwf]

/-- A store holding an authorization code bound to an unknown redirect URI,
plus a client refusing the rebinding; used by the C5 witness. -/
def reqW5 : TokenRequest :=
  { parseFormOk := true, basicAuth := some ("c", "s"),
    grantType := grantTypeAuthorizationCode, code := "code1",
    redirectURI := "" }

/-- Witness for C5: the no-mutation fact of `CheckAuthorizationCode`
instantiated on the concrete store `stW1` and request `reqW5`. -/
theorem authCodeExchange_delete_ordering_witness :
    (SessionStore.checkAuthorizationCode stW1 "code1" "" 1).2 = stW1 :=
  (authCodeExchange_delete_ordering authW stW1 reqW5 1 clientW "c" "s"
    (by decide) rfl rfl rfl rfl rfl (by decide)).1

/-! ### Claim C8 -/

theorem eq_of_mem_nodup_keys {α : Type} (l : List (String × α))
    (h : (l.map Prod.fst).Nodup) (p q : String × α) (hp : p ∈ l) (hq : q ∈ l)
    (hk : p.1 = q.1) : p = q := by
  induction l with
  | nil => exact absurd hp (List.not_mem_nil p)
  | cons r rest ih =>
    simp only [List.map_cons, List.nodup_cons] at h
    rcases List.mem_cons.mp hp with hp1 | hp1 <;>
      rcases List.mem_cons.mp hq with hq1 | hq1
    · rw [hp1, hq1]
    · exfalso
      refine h.1 ?_
      rw [← hp1, hk]
      exact List.mem_map_of_mem Prod.fst hq1
    · exfalso
      refine h.1 ?_
      rw [← hq1, ← hk]
      exact List.mem_map_of_mem Prod.fst hp1
    · exact ih h.2 hp1 hq1

theorem deleteAuthorizationCode_grants (st : Store) (c : String) :
    ((st.deleteAuthorizationCode c).2).grants = st.grants := by
  unfold Store.deleteAuthorizationCode
  cases hl : lookupA st.authCodes c with
  | none => simp only [hl]
  | some a => simp only [hl]

theorem wfGrants_of_grants_eq (a b : Store) (h : a.grants = b.grants)
    (hb : b.wfGrants) : a.wfGrants := by
  unfold Store.wfGrants at hb ⊢
  rw [h]
  exact hb

theorem handleAuthCodeTokenRequest_wfGrants (auth : Authenticator)
    (st : Store) (req : TokenRequest) (now : Int) (h : st.wfGrants) :
    ((handleAuthCodeTokenRequest auth st req now).2).wfGrants := by
  unfold handleAuthCodeTokenRequest
  split
  · exact h
  split
  · exact h
  split
  · exact h
  next client hclient =>
  split
  · exact h
  split
  · exact h
  split
  · exact h
  split
  · exact h
  next ac w hcheck =>
  split
  · exact h
  split
  · next e st2 hdel =>
      refine wfGrants_of_grants_eq st2 st ?_ h
      have hgr : ((st.deleteAuthorizationCode req.code).2).grants = st.grants :=
        deleteAuthorizationCode_grants st req.code
      rw [hdel] at hgr
      exact hgr
  · next uu st2 hdel =>
      have hst2 : st2.wfGrants := by
        refine wfGrants_of_grants_eq st2 st ?_ h
        have hgr : ((st.deleteAuthorizationCode req.code).2).grants = st.grants :=
          deleteAuthorizationCode_grants st req.code
        rw [hdel] at hgr
        exact hgr
      split
      · exact hst2
      · next grant hcreate => exact wfGrants_putGrant st2 grant hst2

theorem newGrant_wfGrants (st : Store) (now : Int)
    (toks : List (String × String)) (out : (Except Err Grant) × Store)
    (h : SessionStore.newGrant st now toks = some out) (hwf : st.wfGrants) :
    out.2.wfGrants := by
  revert h
  induction toks with
  | nil => intro h; cases h
  | cons pr rest ih =>
    obtain ⟨acc, ref⟩ := pr
    intro h
    rw [SessionStore.newGrant] at h
    cases hget : Store.getGrant st ((Grant.refresh Grant.zero acc ref now).accessToken) with
    | ok existing =>
      simp only [hget] at h
      by_cases heq : existing.accessToken = (Grant.refresh Grant.zero acc ref now).accessToken
      · simp only [heq, if_true] at h
        exact ih h
      · simp only [heq, if_false, Option.some.injEq] at h
        rw [← h]
        exact wfGrants_putGrant st (Grant.refresh Grant.zero acc ref now) hwf
    | error e =>
      simp only [hget, Option.some.injEq] at h
      rw [← h]
      exact wfGrants_putGrant st (Grant.refresh Grant.zero acc ref now) hwf

/-- Claim C8, amended: in the in-memory store no two live grants ever share
an access token (the well-formedness invariant — distinct keys, each grant
keyed by its own token — is preserved by `PutGrant`, `DeleteGrant`,
`NewGrant` and the auth-code token handler, and under it entries with equal
tokens are equal), and `NewGrant` never overwrites: a grant it returns had
no binding in the store before it was put. `PutGrant` itself, however, is an
unconditional overwrite, and the auth-code token handler stores the
client-created grant through it, so a live grant under the same token can be
silently replaced (see the counterexample). -/
theorem grant_token_uniqueness :
    (∀ st : Store, st.wfGrants → ∀ p q, p ∈ st.grants → q ∈ st.grants →
       (p.2).accessToken = (q.2).accessToken → p = q) ∧
    (∀ (st : Store) (g : Grant), st.wfGrants → (st.putGrant g).wfGrants) ∧
    (∀ (st : Store) (tok : String), st.wfGrants → ((st.deleteGrant tok).2).wfGrants) ∧
    (∀ (st : Store) (now : Int) (toks : List (String × String))
       (out : (Except Err Grant) × Store),
       SessionStore.newGrant st now toks = some out → st.wfGrants → out.2.wfGrants) ∧
    (∀ (auth : Authenticator) (st : Store) (req : TokenRequest) (now : Int),
       st.wfGrants → ((handleAuthCodeTokenRequest auth st req now).2).wfGrants) ∧
    (∀ (st : Store) (now : Int) (toks : List (String × String)) (g : Grant)
       (st1 : Store), st.wfGrants →
       SessionStore.newGrant st now toks = some (.ok g, st1) →
       lookupA st.grants g.accessToken = none) := by
  refine ⟨?_, wfGrants_putGrant, wfGrants_deleteGrant, ?_, ?_, ?_⟩
  · intro st hwf p q hp hq htok
    exact eq_of_mem_nodup_keys st.grants hwf.1 p q hp hq
      (by rw [← hwf.2 p hp, ← hwf.2 q hq, htok])
  · intro st now toks out h hwf
    exact newGrant_wfGrants st now toks out h hwf
  · intro auth st req now hwf
    exact handleAuthCodeTokenRequest_wfGrants auth st req now hwf
  · intro st now toks g st1 hwf h
    revert h
    induction toks with
    | nil => intro h; cases h
    | cons pr rest ih =>
      obtain ⟨acc, ref⟩ := pr
      intro h
      rw [SessionStore.newGrant] at h
      simp only [refresh_accessToken] at h
      cases hget : Store.getGrant st acc with
      | ok existing =>
        simp only [hget] at h
        by_cases heq : existing.accessToken = acc
        · simp only [refresh_accessToken, heq, if_true] at h
          exact ih h
        · simp only [refresh_accessToken, heq, if_false, Option.some.injEq,
            Prod.mk.injEq] at h
          exfalso
          exact heq (hwf.2 (acc, existing)
            (mem_of_lookupA st.grants acc existing
              (getGrant_ok_lookup st acc existing hget)))
      | error e =>
        simp only [hget, Option.some.injEq, Prod.mk.injEq] at h
        have hg : Grant.refresh Grant.zero acc ref now = g := by
          have := h.1
          cases this
          rfl
        rw [← hg, refresh_accessToken]
        exact (getGrant_error st acc e hget).2

/-- A live grant about to be silently replaced. -/
def grantLiveW : Grant :=
  { accessToken := "tkX", tokenType := "bearer", expiresIn := 3600,
    refreshToken := "", scope := ["old"], createdAt := 0, client := none }

/-- A different grant carrying the same access token. -/
def grantReplW : Grant :=
  { accessToken := "tkX", tokenType := "bearer", expiresIn := 3600,
    refreshToken := "", scope := ["new"], createdAt := 0, client := none }

/-- A client whose `CreateGrant` returns `grantReplW`. -/
def clientW8 : ClientC :=
  { allowStrategy := fun _ => true,
    allowStrategyErr := fun _ => (true, none),
    authorizeScope := fun s => (s, none),
    allowRedirectURI := fun _ => true,
    authorizeResourceOwner := fun _ => (true, none),
    createGrant := fun _ => .ok grantReplW }

/-- An authenticator accepting any credentials with `clientW8`. -/
def authW8 : Authenticator :=
  { getClient := fun _ => .ok clientW8,
    getClientWithSecret := fun _ _ => .ok clientW8,
    authorizeResourceOwner := fun _ _ sc => .ok sc }

/-- The authorization code the replacing exchange consumes. -/
def acW8 : AuthorizationCode :=
  { code := "codeX", redirectURI := "", scope := ["new"], createdAt := 0,
    expiresIn := defaultAuthorizationCodeExpiry }

/-- Store holding the live grant `grantLiveW` and the code `acW8`. -/
def stW8 : Store := (Store.empty.putGrant grantLiveW).putAuthorizationCode acW8

/-- The exchange request presenting `acW8`. -/
def reqW8 : TokenRequest :=
  { parseFormOk := true, basicAuth := some ("c", "s"),
    grantType := grantTypeAuthorizationCode, code := "codeX",
    redirectURI := "" }

/-- Counterexample for C8: the auth-code token handler's
`CreateGrant`+`PutGrant` path succeeds while silently replacing the live
grant stored under "tkX" with a different grant (its scope changes from
["old"] to ["new"]), so the store's minting-and-storing operations can
replace one live grant with a different one under the same token. -/
theorem putGrant_silent_replacement_counterexample :
    (lookupA stW8.grants "tkX").map Grant.scope = some ["old"] ∧
    (handleAuthCodeTokenRequest authW8 stW8 reqW8 1).1 = .ok grantReplW ∧
    (lookupA ((handleAuthCodeTokenRequest authW8 stW8 reqW8 1).2).grants "tkX").map
      Grant.scope = some ["new"] ∧
    (["old"] : List String) ≠ ["new"] :=
  ⟨rfl, rfl, rfl, by decide⟩

theorem wf_gStoreW : Store.wfGrants gStoreW := by
  unfold Store.wfGrants
  refine ⟨by decide, ?_⟩
  intro p hp
  rcases List.mem_singleton.mp hp with rfl
  rfl

theorem wf_storeW7 : Store.wfGrants storeW7 := by
  unfold Store.wfGrants
  refine ⟨by decide, ?_⟩
  intro p hp
  rcases List.mem_singleton.mp hp with rfl
  rfl

/-- Witness for C8 (amended): the preservation and no-overwrite facts
applied to the concrete stores of this file. -/
theorem grant_token_uniqueness_witness :
    Store.wfGrants (gStoreW.putGrant gW) ∧
    lookupA storeW7.grants gNewW.accessToken = none :=
  ⟨grant_token_uniqueness.2.1 gStoreW gW wf_gStoreW,
   grant_token_uniqueness.2.2.2.2.2 storeW7 5 [("t0", "r0"), ("t1", "r1")]
     gNewW (storeW7.putGrant gNewW) wf_storeW7 rfl⟩

/-! ### Claim C2 -/

/-- A valid, unexpired grant whose own scope covers "s" but which carries no
client reference. -/
def grantNoClientW : Grant :=
  { accessToken := "tok1", tokenType := "bearer", expiresIn := 3600,
    refreshToken := "", scope := ["s"], createdAt := 0, client := none }

/-- Store holding exactly `grantNoClientW`. -/
def storeW2 : Store := Store.empty.putGrant grantNoClientW

/-- Counterexample for C2: a request bearing the valid token of
`grantNoClientW` against required scope ["s"] — every required element is in
the grant's scope and the grant carries no client reference, so the claim
says the wrapped handler runs; the gate instead responds access_denied/401,
because `middleware.go` never consults the grant's own scope and denies
whenever `grant.Client == nil` under a non-nil required scope. -/
theorem bearerGate_grantScope_counterexample :
    checkInScope "s" grantNoClientW.scope = true ∧
    (checkBearerAuth storeW2 (some ["s"]) "Bearer tok1" 5).1
      = [.status 401, .body .accessDenied] ∧
    ([Write.status 401, Write.body Err.accessDenied] ≠ [Write.handler]) :=
  ⟨rfl, rfl, by decide⟩

/-- Claim C2, amended: the gate denies with 401 when the header is absent or
does not start with "Bearer" (the space is not required by the prefix
check); a leading "Bearer " is stripped and the rest validated through
`CheckGrant`, whose failure is reported with status 401; a nil required
scope admits any valid token; a non-nil required scope (even an empty one)
is checked against the client carried by the grant — never against the
grant's own scope — denying when the grant has no client or when some
required element is missing from the client's `AuthorizeScope` result, and
an `AuthorizeScope` error writes an extra access_denied response without
returning; only then is the wrapped handler invoked, exactly once. -/
theorem bearerGate_characterization (st : Store) (rs : Option (List String))
    (cred : String) (now : Int) :
    (cred = "" →
       checkBearerAuth st rs cred now = ([.status 401, .body .accessDenied], st)) ∧
    (goStartsWith cred "Bearer" = false →
       checkBearerAuth st rs cred now = ([.status 401, .body .accessDenied], st)) ∧
    (cred ≠ "" → goStartsWith cred "Bearer" = true →
      ∀ res st1, checkGrantMem st (goTrimLead cred "Bearer ") now = (res, st1) →
      (∀ e, res = .error e →
         checkBearerAuth st rs cred now = ([.status 401, .body e], st1)) ∧
      (∀ g, res = .ok g →
        (rs = none → checkBearerAuth st rs cred now = ([.handler], st1)) ∧
        (∀ required, rs = some required →
          (g.client = none →
             checkBearerAuth st rs cred now
               = ([.status 401, .body .accessDenied], st1)) ∧
          (∀ c, g.client = some c →
            ∀ scope aerr, c.authorizeScope required = (scope, aerr) →
              checkBearerAuth st rs cred now
                = ((match aerr with
                    | some _ => [Write.status 401, Write.body Err.accessDenied]
                    | none => ([] : List Write)) ++
                   (if required.all (fun check => checkInScope check scope) then
                      [Write.handler]
                    else [Write.status 401, Write.body Err.accessDenied]),
                   st1))))) := by
  refine ⟨?_, ?_, ?_⟩
  · intro hc
    unfold checkBearerAuth
    rw [if_pos hc]
  · intro hsw
    unfold checkBearerAuth
    by_cases hc : cred = ""
    · rw [if_pos hc]
    · rw [if_neg hc, if_pos hsw]
  · intro hc hsw res st1 hcg
    constructor
    · intro e he
      unfold checkBearerAuth
      rw [if_neg hc, if_neg (by simp [hsw])]
      simp only [hcg, he]
    · intro g hg
      constructor
      · intro hrs
        unfold checkBearerAuth
        rw [if_neg hc, if_neg (by simp [hsw])]
        simp only [hcg, hg, hrs]
      · intro required hrs
        constructor
        · intro hcl
          unfold checkBearerAuth
          rw [if_neg hc, if_neg (by simp [hsw])]
          simp only [hcg, hg, hrs, hcl]
        · intro c hcl scope aerr hscope
          unfold checkBearerAuth
          rw [if_neg hc, if_neg (by simp [hsw])]
          simp only [hcg, hg, hrs, hcl, hscope]
          by_cases hall : required.all (fun check => checkInScope check scope) = true
          · rw [if_pos hall, if_pos hall]
          · rw [if_neg hall, if_neg hall]

/-- Witness for C2 (amended): the gate applied to the valid token of
`grantNoClientW` with no required scope invokes the handler once and passes
its response through. -/
theorem bearerGate_characterization_witness :
    checkBearerAuth storeW2 none "Bearer tok1" 5 = ([Write.handler], storeW2) :=
  ((((bearerGate_characterization storeW2 none "Bearer tok1" 5).2.2
      (by decide) rfl (.ok grantNoClientW) storeW2 rfl).2
      grantNoClientW rfl).1) rfl

/-! ### Claim C4 -/

/-- A request to the authorize endpoint for an unknown client, implicit
flow. -/
def reqW4 : AuthorizeRequest :=
  { method := "GET", clientID := "cX", redirectURI := "https://cb.example",
    responseType := "token", rawScope := "", state := "", username := "",
    password := "", parseFormOk := true }

/-- An authenticator that knows no client. -/
def authW4 : Authenticator :=
  { getClient := fun _ => .error .unauthorizedClient,
    getClientWithSecret := fun _ _ => .error .unauthorizedClient,
    authorizeResourceOwner := fun _ _ _ => .error .accessDenied }

/-- Counterexample for C4: in the Implicit flow an unknown-client failure —
occurring before the redirect URI has been authorized for any client — is
delivered as an HTTP redirect to the supplied URI, not as a direct JSON
error. -/
theorem implicit_unknownClient_redirect_counterexample :
    (handleImplicitGrant authW4 (fun _ => .error .serverError)
        (fun _ => true) reqW4).isRedirect = true ∧
    (handleImplicitGrant authW4 (fun _ => .error .serverError)
        (fun _ => true) reqW4).isJsonError = false :=
  ⟨rfl, rfl⟩

/-- Claim C4, amended: the Authorization Code authorize endpoint keeps the
claimed policy — unknown client, disallowed grant type and unparseable
redirect URI all answer with a direct JSON error, and any redirect it emits
(success or error) happens only after the client was resolved, the grant
type allowed, the URI parsed and the URI authorized for the client. The
Implicit flow keeps it only up to URI parsing: response-type mismatch,
missing URI and unparseable URI are JSON errors, but unknown-client and
disallowed-grant-type failures are delivered by redirecting to the supplied
— not yet authorized — redirect URI. -/
theorem authorize_failure_policy :
    (∀ auth urlOk genTok st req now base q f st1,
       handleAuthorizationCodeGrant auth urlOk genTok st req now
         = (.redirect base q f, st1) →
       ∃ client, auth.getClient req.clientID = .ok client ∧
         client.allowStrategy .authorizationCode = true ∧
         urlOk req.redirectURI = true ∧
         client.allowRedirectURI req.redirectURI = true ∧
         base = req.redirectURI) ∧
    (∀ auth urlOk genTok st req now e,
       auth.getClient req.clientID = .error e →
       handleAuthorizationCodeGrant auth urlOk genTok st req now
         = (.jsonError .unauthorizedClient, st)) ∧
    (∀ auth urlOk genTok st req now client,
       auth.getClient req.clientID = .ok client →
       client.allowStrategy .authorizationCode = false →
       handleAuthorizationCodeGrant auth urlOk genTok st req now
         = (.jsonError .unauthorizedClient, st)) ∧
    (∀ auth urlOk genTok st req now client,
       auth.getClient req.clientID = .ok client →
       client.allowStrategy .authorizationCode = true →
       urlOk req.redirectURI = false →
       handleAuthorizationCodeGrant auth urlOk genTok st req now
         = (.jsonError .other, st)) ∧
    (∀ auth ng urlOk (req : AuthorizeRequest) e,
       req.responseType = responseTypeToken → req.redirectURI ≠ "" →
       urlOk req.redirectURI = true → req.clientID ≠ "" →
       auth.getClient req.clientID = .error e →
       handleImplicitGrant auth ng urlOk req
         = .redirect req.redirectURI []
             [("error", Err.unauthorizedClient.codeString),
              ("error_description", Err.unauthorizedClient.descString)]) ∧
    (∀ auth ng urlOk (req : AuthorizeRequest) client,
       req.responseType = responseTypeToken → req.redirectURI ≠ "" →
       urlOk req.redirectURI = true → req.clientID ≠ "" →
       auth.getClient req.clientID = .ok client →
       client.allowStrategyErr .implicit = (false, none) →
       handleImplicitGrant auth ng urlOk req
         = .redirect req.redirectURI []
             [("error", Err.unauthorizedClient.codeString),
              ("error_description", Err.unauthorizedClient.descString)]) := by
  refine ⟨?_, ?_, ?_, ?_, ?_, ?_⟩
  · intro auth urlOk genTok st req now base q f st1 h
    unfold handleAuthorizationCodeGrant at h
    split at h
    · exact absurd h (by simp)
    next client hclient =>
    refine ⟨client, hclient, ?_⟩
    split at h
    · exact absurd h (by simp)
    next hstrat =>
    have hstrat1 : client.allowStrategy .authorizationCode = true := by
      cases hb : client.allowStrategy .authorizationCode with
      | true => rfl
      | false => exact absurd hb hstrat
    refine ⟨hstrat1, ?_⟩
    split at h
    · exact absurd h (by simp)
    next hurl =>
    have hurl1 : urlOk req.redirectURI = true := by
      cases hb : urlOk req.redirectURI with
      | true => rfl
      | false => exact absurd hb hurl
    refine ⟨hurl1, ?_⟩
    split at h
    · exact absurd h (by simp)
    next hredir =>
    have hredir1 : client.allowRedirectURI req.redirectURI = true := by
      cases hb : client.allowRedirectURI req.redirectURI with
      | true => rfl
      | false => exact absurd hb hredir
    refine ⟨hredir1, ?_⟩
    split at h
    · next hrt =>
      simp only [Prod.mk.injEq, AuthzResp.redirect.injEq] at h
      exact h.1.1.symm
    next hrt =>
    split at h
    · exact absurd h (by simp)
    next scope hscope =>
    split at h
    · split at h
      · exact absurd h (by simp)
      split at h
      · exact absurd h (by simp)
      next allowed hro =>
      split at h
      · exact absurd h (by simp)
      split at h
      · exact absurd h (by simp)
      next scope1 hro2 =>
      split at h
      · exact absurd h (by simp)
      next ac st2 hnew =>
      simp only [Prod.mk.injEq, AuthzResp.redirect.injEq] at h
      exact h.1.1.symm
    · exact absurd h (by simp)
  · intro auth urlOk genTok st req now e hget
    unfold handleAuthorizationCodeGrant
    simp only [hget]
  · intro auth urlOk genTok st req now client hget hstrat
    unfold handleAuthorizationCodeGrant
    simp only [hget, hstrat, Bool.false_eq_true, eq_self_iff_true, if_true]
  · intro auth urlOk genTok st req now client hget hstrat hurl
    unfold handleAuthorizationCodeGrant
    simp only [hget, hstrat, hurl, Bool.true_eq_false, Bool.false_eq_true,
      eq_self_iff_true, if_true, if_false]
  · intro auth ng urlOk req e h1 h2 h3 h4 h5
    unfold handleImplicitGrant
    rw [if_neg (by simp [h1]), if_neg h2, if_neg (by simp [h3]), if_neg h4]
    simp only [h5]
    unfold implicitErrorRedirect
    rw [if_neg (by simp [h3])]
  · intro auth ng urlOk req client h1 h2 h3 h4 h5 h6
    unfold handleImplicitGrant
    rw [if_neg (by simp [h1]), if_neg h2, if_neg (by simp [h3]), if_neg h4]
    simp only [h5, h6, Bool.false_eq_true, eq_self_iff_true, if_true]
    unfold implicitErrorRedirect
    rw [if_neg (by simp [h3])]

/-- Witness for C4 (amended): the unknown-client implicit failure of the
counterexample input, produced by applying the amended theorem. -/
theorem authorize_failure_policy_witness :
    handleImplicitGrant authW4 (fun _ => Except.error Err.serverError)
        (fun _ => true) reqW4
      = .redirect "https://cb.example" []
          [("error", Err.unauthorizedClient.codeString),
           ("error_description", Err.unauthorizedClient.descString)] :=
  authorize_failure_policy.2.2.2.2.1 authW4 (fun _ => Except.error Err.serverError)
    (fun _ => true) reqW4 .unauthorizedClient rfl (by decide) rfl (by decide) rfl

/-! ### Claim C9 -/

/-- Counterexample for C9: an implicit request carrying state "xyz" that
fails at client resolution is answered by an error redirect whose fragment
carries only `error` and `error_description` — the state value is not
echoed. -/
theorem implicit_state_error_redirect_counterexample :
    handleImplicitGrant authW4 (fun _ => Except.error Err.serverError)
        (fun _ => true)
        { reqW4 with state := "xyz" }
      = .redirect "https://cb.example" []
          [("error", Err.unauthorizedClient.codeString),
           ("error_description", Err.unauthorizedClient.descString)] ∧
    ("state", "xyz") ∉
      [("error", Err.unauthorizedClient.codeString),
       ("error_description", Err.unauthorizedClient.descString)] := by
  refine ⟨rfl, ?_⟩
  intro hv
  rcases List.mem_cons.mp hv with h | h
  · rw [Prod.mk.injEq] at h
    exact absurd h.1 (by decide)
  · rcases List.mem_cons.mp h with h1 | h1
    · rw [Prod.mk.injEq] at h1
      exact absurd h1.1 (by decide)
    · exact absurd h1 (List.not_mem_nil _)

/-- Claim C9, amended: in the Implicit flow a non-empty `state` is echoed
verbatim in the fragment of the success redirect, but error redirects
(built by `implicitErrorRedirect`) carry only `error` and
`error_description` and never echo `state`. -/
theorem implicit_state_echo :
    (∀ auth ng urlOk (req : AuthorizeRequest) client scope g,
       req.responseType = responseTypeToken → req.redirectURI ≠ "" →
       urlOk req.redirectURI = true → req.clientID ≠ "" →
       auth.getClient req.clientID = .ok client →
       client.allowStrategyErr .implicit = (true, none) →
       client.authorizeScope (goSplitSpace req.rawScope) = (scope, none) →
       client.allowRedirectURI req.redirectURI = true →
       ng scope = .ok g → req.state ≠ "" →
       ∃ f, handleImplicitGrant auth ng urlOk req
           = .redirect req.redirectURI [] f ∧ ("state", req.state) ∈ f) ∧
    (∀ urlOk (uri : String) (e : Err) base q f,
       implicitErrorRedirect urlOk uri e = .redirect base q f →
       ∀ v, ("state", v) ∉ f) := by
  constructor
  · intro auth ng urlOk req client scope g h1 h2 h3 h4 h5 h6 h7 h8 h9 h10
    have heval : handleImplicitGrant auth ng urlOk req
        = .redirect req.redirectURI []
            ([("access_token", g.accessToken),
              ("expires_in", toString g.expiresIn),
              ("token_type", g.tokenType),
              ("scope", String.intercalate " " scope)] ++
             [("state", req.state)]) := by
      unfold handleImplicitGrant
      rw [if_neg (by simp [h1]), if_neg h2, if_neg (by simp [h3]), if_neg h4]
      simp only [h5, h6, h7, h8, h9, h10, Bool.true_eq_false,
        Bool.false_eq_true, if_false, if_true, ne_eq, not_false_eq_true,
        eq_self_iff_true, not_true]
    exact ⟨_, heval, by simp⟩
  · intro urlOk uri e base q f h v hv
    unfold implicitErrorRedirect at h
    by_cases hu : urlOk uri = false
    · rw [if_pos hu] at h
      simp only [AuthzResp.redirect.injEq] at h
      rw [← h.2.2] at hv
      exact absurd hv (List.not_mem_nil _)
    · rw [if_neg hu] at h
      simp only [AuthzResp.redirect.injEq] at h
      rw [← h.2.2] at hv
      rcases List.mem_cons.mp hv with h1 | h1
      · rw [Prod.mk.injEq] at h1
        exact absurd h1.1 (by decide)
      · rcases List.mem_cons.mp h1 with h2 | h2
        · rw [Prod.mk.injEq] at h2
          exact absurd h2.1 (by decide)
        · exact absurd h2 (List.not_mem_nil _)

/-- The implicit success request used by the C9 witness. -/
def reqW9 : AuthorizeRequest :=
  { method := "GET", clientID := "c", redirectURI := "https://cb.example",
    responseType := "token", rawScope := "read", state := "xyz",
    username := "", password := "", parseFormOk := true }

/-- Witness for C9 (amended): a successful concrete implicit grant with
state "xyz" redirects with the state echoed in the fragment. -/
theorem implicit_state_echo_witness :
    handleImplicitGrant authW (fun _ => Except.ok grantW1)
        (fun _ => true) reqW9
      = .redirect "https://cb.example" []
          [("access_token", "at1"), ("expires_in", "3600"),
           ("token_type", "bearer"), ("scope", "read"), ("state", "xyz")] ∧
    ("state", "xyz") ∈
      [(("access_token" : String), ("at1" : String)), ("expires_in", "3600"),
       ("token_type", "bearer"), ("scope", "read"), ("state", "xyz")] := by
  obtain ⟨f, hf, hm⟩ := implicit_state_echo.1 authW (fun _ => Except.ok grantW1)
    (fun _ => true) reqW9 clientW ["read"] grantW1 rfl (by decide) rfl
    (by decide) rfl rfl rfl rfl rfl (by decide)
  have hev : handleImplicitGrant authW (fun _ => Except.ok grantW1)
      (fun _ => true) reqW9
      = .redirect "https://cb.example" []
          [("access_token", "at1"), ("expires_in", "3600"),
           ("token_type", "bearer"), ("scope", "read"), ("state", "xyz")] := rfl
  refine ⟨hev, ?_⟩
  rw [hev] at hf
  simp only [AuthzResp.redirect.injEq] at hf
  rw [hf.2.2]
  exact hm

end GoAuth
